import Mathlib

/-!
Verification of the rift-legends core client/cache/concurrency layer.

Shallow embedding, translated from `src/app/lib/riot-api.server.ts` and
`src/app/lib/db.server.ts`:

* the rate-limited fetch pipeline `riotFetchInner`, with the upstream network
  modelled as a stream of scripted attempt results and the side effects
  (sleeps, upstream calls) recorded in an explicit event trace;
* the counting semaphore `Semaphore` (`acquire`/`release`), as a state machine
  over acquire/release event traces;
* the TTL cache `cacheGet`/`cacheSet` over an association-list store (payloads
  are JSON strings in the source; here each accessor's store is typed by the
  payload it keeps);
* the LP snapshot recorder `recordLpSnapshot` over a per-subject append list
  (the source's `lp_history` table filtered to one `puuid`), with the query
  `ORDER BY recorded_at DESC LIMIT 1` embedded as a max-by-recorded-at scan
  preferring later insertions;
* the LP delta attributor `attachLpChanges` (mutation of the shared
  `ProcessedMatch` objects becomes a pure list transformation); its
  floating-point estimation branch is embedded in exact rational arithmetic
  (`Math.round` is `round`, which also rounds halves up); no theorem below
  depends on the estimated values, only on whether a value is assigned and on
  the exact single-match branch, which is integer arithmetic in the source;
* the in-flight deduplicator of `getMatchDetail`, as a state machine whose
  synchronous section runs between suspension points of the event loop;
* the accessors `getRankedByPuuid` and `getMemberMatchHistory`, with the
  network calls they perform modelled as explicit outcome arguments.

`computeGameRanks` is imported by the source from `./utils` but is not part of
the core under verification (the spec treats the score-computation formula as
an external pure utility); it is taken as a function parameter, so every
theorem below holds for any choice of it.
-/

namespace RiftLegends

/-! ## Fetch pipeline (`riotFetchInner`) -/

/-- Error value thrown by the pipeline (`RiotApiError` in the source). -/
structure RiotApiError where
  message : String
  status : Nat
deriving Repr, DecidableEq

/-- The part of an HTTP response the pipeline inspects: the status code and
the parsed `Retry-After` header (seconds), when present. -/
structure Resp where
  status : Nat
  retryAfter : Option Nat := none
deriving Repr, DecidableEq

/-- Outcome of one underlying `fetch` call: the fetch throws (network error)
or yields a response. -/
inductive AttemptResult where
  | netError
  | response (r : Resp)
deriving Repr, DecidableEq

/-- Observable events of one pipeline run: an upstream call (recording the
`attempt` and `rateLimitRetries` counters at that call) or a sleep. -/
inductive FetchEv where
  | fetchAttempt (attempt rateLimitRetries : Nat)
  | sleepMs (ms : Nat)
deriving Repr, DecidableEq

def MAX_RETRIES : Nat := 3
def MAX_RATE_LIMIT_RETRIES : Nat := 3
def RETRY_DELAY_MS : Nat := 2000

/-- A response is `ok` when its status is in the 2xx range. -/
def Resp.ok (r : Resp) : Bool := 200 ≤ r.status && r.status < 300

/-- `riotFetchInner` from the source.  `keyOk` is whether `RIOT_API_KEY` is
configured; `up k` scripts the outcome of the `k`-th underlying fetch.
Returns the result together with the trace of upstream calls and sleeps. -/
def riotFetchInner (keyOk : Bool) (up : Nat → AttemptResult)
    (k : Nat) (attempt : Nat) (rateLimitRetries : Nat) :
    Except RiotApiError Resp × List FetchEv :=
  if ¬ keyOk then
    (.error ⟨"RIOT_API_KEY is not configured", 403⟩, [])
  else
    match up k with
    | .netError =>
      if _h2 : attempt < MAX_RETRIES then
        let rest := riotFetchInner keyOk up (k + 1) (attempt + 1) rateLimitRetries
        (rest.1, .fetchAttempt attempt rateLimitRetries ::
          .sleepMs (RETRY_DELAY_MS * attempt) :: rest.2)
      else
        (.error ⟨"Network error: failed to reach Riot API", 0⟩,
          [.fetchAttempt attempt rateLimitRetries])
    | .response r =>
      if r.status = 429 then
        let retryAfter := r.retryAfter.getD 2
        if _h3 : MAX_RATE_LIMIT_RETRIES ≤ rateLimitRetries then
          (.error ⟨"Rate limited by Riot API (max retries exceeded)", 429⟩,
            [.fetchAttempt attempt rateLimitRetries])
        else
          let rest := riotFetchInner keyOk up (k + 1) attempt (rateLimitRetries + 1)
          (rest.1, .fetchAttempt attempt rateLimitRetries ::
            .sleepMs (retryAfter * 1000) :: rest.2)
      else if _h4 : 500 ≤ r.status ∧ attempt < MAX_RETRIES then
        let rest := riotFetchInner keyOk up (k + 1) (attempt + 1) rateLimitRetries
        (rest.1, .fetchAttempt attempt rateLimitRetries ::
          .sleepMs (RETRY_DELAY_MS * attempt) :: rest.2)
      else if r.status = 401 then
        (.error ⟨"Riot API key is missing or invalid", 401⟩,
          [.fetchAttempt attempt rateLimitRetries])
      else if r.status = 403 then
        (.error ⟨"Riot API key is invalid or expired", 403⟩,
          [.fetchAttempt attempt rateLimitRetries])
      else if r.status = 404 then
        (.error ⟨"Not found", 404⟩, [.fetchAttempt attempt rateLimitRetries])
      else if ¬ r.ok then
        (.error ⟨"Riot API error", r.status⟩,
          [.fetchAttempt attempt rateLimitRetries])
      else
        (.ok r, [.fetchAttempt attempt rateLimitRetries])
termination_by (MAX_RETRIES - attempt) + (MAX_RATE_LIMIT_RETRIES - rateLimitRetries)
decreasing_by
  · omega
  · omega
  · omega

/-! ## Concurrency limiter (`Semaphore`) -/

/-- Process-local state of the semaphore: the `active` counter (a JS number,
so an `Int` here) and the FIFO queue of suspended callers, identified by
opaque ids. -/
structure SemState where
  active : Int
  queue : List Nat
deriving Repr, DecidableEq

/-- `Semaphore.acquire`: grant immediately when `active < max`, otherwise
append the caller to the wait queue.  Returns the new state and whether the
permit was granted without suspending. -/
def semAcquire (max : Int) (s : SemState) (id : Nat) : SemState × Bool :=
  if s.active < max then ({ s with active := s.active + 1 }, true)
  else ({ s with queue := s.queue ++ [id] }, false)

/-- `Semaphore.release`: decrement `active`, then if a caller is queued, pop
the longest-waiting one and run its continuation (which increments `active`
and resumes it).  Returns the new state and the woken caller, if any. -/
def semRelease (s : SemState) : SemState × Option Nat :=
  let a := s.active - 1
  match s.queue with
  | [] => ({ active := a, queue := [] }, none)
  | w :: rest => ({ active := a + 1, queue := rest }, some w)

/-- One scheduler event: a caller invokes `acquire`, or a permit holder
invokes `release`.  Mutations run synchronously between suspension points of
the event loop, so a trace of these events covers every interleaving. -/
inductive SemEv where
  | acq (id : Nat)
  | rel
deriving Repr, DecidableEq

/-- Run a trace of events, tracking the semaphore state together with the
number of outstanding permits (granted and not yet released): an immediate
grant adds a permit; a release returns one, handing it straight to a woken
waiter when the queue is non-empty. -/
def semRun (max : Int) : SemState × Int → List SemEv → SemState × Int
  | so, [] => so
  | (s, o), .acq i :: es =>
    let r := semAcquire max s i
    semRun max (r.1, if r.2 then o + 1 else o) es
  | (s, o), .rel :: es =>
    let r := semRelease s
    semRun max (r.1, o - 1 + (if r.2.isSome then 1 else 0)) es

/-- A trace is well formed when every `release` is performed by a caller that
actually holds a permit, i.e. when at least one permit is outstanding. -/
def semValid (max : Int) : SemState × Int → List SemEv → Bool
  | _, [] => true
  | (s, o), .acq i :: es =>
    let r := semAcquire max s i
    semValid max (r.1, if r.2 then o + 1 else o) es
  | (s, o), .rel :: es =>
    let r := semRelease s
    1 ≤ o && semValid max (r.1, o - 1 + (if r.2.isSome then 1 else 0)) es

/-- The initial semaphore (no active permits, empty queue, no outstanding
permits); the source constructs `new Semaphore(5)`. -/
def semInit : SemState × Int := (⟨0, []⟩, 0)

/-! ## TTL cache (`cacheGet` / `cacheSet` from `db.server.ts`)

The `riot_cache` table keyed by `cache_key`.  Payloads are JSON strings in
the source; each accessor reads and writes one payload shape under its own
key namespace, so the store is typed by that payload here. -/

/-- One row of `riot_cache`. -/
structure CacheRow (α : Type) where
  cache_key : String
  data : α
  cached_at : Nat
deriving Repr, DecidableEq

/-- The `riot_cache` table (rows in insertion order). -/
abbrev CacheStore (α : Type) := List (CacheRow α)

/-- `cacheGet`: look the key up; on a hit compare the entry's age against the
caller-supplied TTL, and when expired delete the row and report a miss.
Returns the result together with the table after the read. -/
def cacheGet (st : CacheStore α) (key : String) (ttlSeconds : Nat) (now : Nat) :
    Option α × CacheStore α :=
  match st.find? (fun r => r.cache_key == key) with
  | none => (none, st)
  | some row =>
    let age : Int := (now : Int) - (row.cached_at : Int)
    if (ttlSeconds : Int) < age then
      (none, st.filter (fun r => !(r.cache_key == key)))
    else
      (some row.data, st)

/-- `cacheSet`: `INSERT OR REPLACE` of `(key, data, now)`. -/
def cacheSet (st : CacheStore α) (key : String) (data : α) (now : Nat) :
    CacheStore α :=
  st.filter (fun r => !(r.cache_key == key)) ++ [⟨key, data, now⟩]

/-! ## LP snapshot recorder (`recordLpSnapshot` / `getLpSnapshots`) -/

/-- One row of `lp_history` (for a fixed subject, whose `puuid` every query
filters on). -/
structure LpSnapshot where
  tier : String
  rank : String
  lp : Int
  wins : Nat
  losses : Nat
  recorded_at : Nat
deriving Repr, DecidableEq

/-- `SELECT ... ORDER BY recorded_at DESC LIMIT 1`: the snapshot with the
greatest `recorded_at`, preferring the later-inserted row among ties. -/
def latestSnapshot (hist : List LpSnapshot) : Option LpSnapshot :=
  hist.foldl
    (fun acc s =>
      match acc with
      | none => some s
      | some b => if b.recorded_at ≤ s.recorded_at then some s else some b)
    none

/-- `recordLpSnapshot`: skip when the latest snapshot has the same `wins` and
`losses`; otherwise insert a new row stamped `now`. -/
def recordLpSnapshot (hist : List LpSnapshot) (tier rank : String) (lp : Int)
    (wins losses : Nat) (now : Nat) : List LpSnapshot :=
  match latestSnapshot hist with
  | some last =>
    if last.wins = wins ∧ last.losses = losses then hist
    else hist ++ [⟨tier, rank, lp, wins, losses, now⟩]
  | none => hist ++ [⟨tier, rank, lp, wins, losses, now⟩]

/-- `getLpSnapshots`: the subject's rows `ORDER BY recorded_at ASC` (stable
for ties, as a stable sort of the stored order). -/
def getLpSnapshots (hist : List LpSnapshot) : List LpSnapshot :=
  hist.mergeSort (fun x y => x.recorded_at ≤ y.recorded_at)

/-- The inputs of one `recordLpSnapshot` call, with the clock reading the
source takes from `Date.now()`. -/
structure LpInput where
  tier : String
  rank : String
  lp : Int
  wins : Nat
  losses : Nat
  now : Nat
deriving Repr, DecidableEq

/-- Run a sequence of `recordLpSnapshot` calls against one subject's
initially-empty history. -/
def runRecords (inputs : List LpInput) : List LpSnapshot :=
  inputs.foldl
    (fun hist i => recordLpSnapshot hist i.tier i.rank i.lp i.wins i.losses i.now)
    []

/-- The row a `recordLpSnapshot` call inserts when it does not skip. -/
def LpInput.snap (i : LpInput) : LpSnapshot :=
  ⟨i.tier, i.rank, i.lp, i.wins, i.losses, i.now⟩

/-! ## Match data model (`types.ts`) -/

/-- `MatchParticipant` from `types.ts`. -/
structure MatchParticipant where
  puuid : String
  summonerName : String
  riotIdGameName : String
  riotIdTagline : String
  championId : Nat
  championName : String
  champLevel : Nat
  kills : Nat
  deaths : Nat
  assists : Nat
  totalMinionsKilled : Nat
  neutralMinionsKilled : Nat
  visionScore : Nat
  item0 : Nat
  item1 : Nat
  item2 : Nat
  item3 : Nat
  item4 : Nat
  item5 : Nat
  item6 : Nat
  summoner1Id : Nat
  summoner2Id : Nat
  win : Bool
  teamPosition : String
  totalDamageDealtToChampions : Nat
  totalDamageTaken : Nat
  goldEarned : Nat
deriving Repr, DecidableEq

/-- The `metadata` part of `MatchDetail`. -/
structure MatchMetadata where
  matchId : String
  participants : List String
deriving Repr, DecidableEq

/-- The `info` part of `MatchDetail` (`gameCreation` in milliseconds,
`gameDuration` in seconds). -/
structure MatchInfo where
  gameCreation : Nat
  gameDuration : Nat
  gameEndTimestamp : Nat
  gameMode : String
  queueId : Nat
  participants : List MatchParticipant
deriving Repr, DecidableEq

/-- `MatchDetail` from `types.ts`. -/
structure MatchDetail where
  metadata : MatchMetadata
  info : MatchInfo
deriving Repr, DecidableEq

/-- `ProcessedMatch` from `types.ts`; the optional `lpChange` starts unset and
is only ever written by `attachLpChanges`. -/
structure ProcessedMatch where
  matchId : String
  win : Bool
  championName : String
  champLevel : Nat
  kills : Nat
  deaths : Nat
  assists : Nat
  cs : Nat
  csPerMin : ℚ
  visionScore : Nat
  items : List Nat
  trinket : Nat
  summoner1Id : Nat
  summoner2Id : Nat
  gameDuration : Nat
  queueId : Nat
  gameCreation : Nat
  totalDamageDealtToChampions : Nat
  totalDamageTaken : Nat
  goldEarned : Nat
  gameRank : Nat
  teamPosition : String
  lpChange : Option Int
deriving Repr, DecidableEq

/-- `csPerMin` from `utils.ts`, in exact rational arithmetic (`Math.round`
rounds halves up, as `round` does). -/
def csPerMin (cs : Nat) (gameDurationSeconds : Nat) : ℚ :=
  let minutes : ℚ := (gameDurationSeconds : ℚ) / 60
  if minutes = 0 then 0
  else ((round ((cs : ℚ) / minutes * 10) : ℤ) : ℚ) / 10

/-- `processMatch` from `riot-api.server.ts`.  `cgr` is the out-of-scope
`computeGameRanks` utility (a `Map` from puuid to rank in the source); every
theorem below holds for any choice of it. -/
def processMatch (cgr : List MatchParticipant → Nat → String → Option Nat)
    (md : MatchDetail) (puuid : String) : Option ProcessedMatch :=
  match md.info.participants.find? (fun p => p.puuid == puuid) with
  | none => none
  | some participant =>
    let totalCs := participant.totalMinionsKilled + participant.neutralMinionsKilled
    let gameRank := (cgr md.info.participants md.info.gameDuration puuid).getD 10
    some
      { matchId := md.metadata.matchId
        win := participant.win
        championName := participant.championName
        champLevel := participant.champLevel
        kills := participant.kills
        deaths := participant.deaths
        assists := participant.assists
        cs := totalCs
        csPerMin := csPerMin totalCs md.info.gameDuration
        visionScore := participant.visionScore
        items := [participant.item0, participant.item1, participant.item2,
          participant.item3, participant.item4, participant.item5]
        trinket := participant.item6
        summoner1Id := participant.summoner1Id
        summoner2Id := participant.summoner2Id
        gameDuration := md.info.gameDuration
        queueId := md.info.queueId
        gameCreation := md.info.gameCreation
        totalDamageDealtToChampions := participant.totalDamageDealtToChampions
        totalDamageTaken := participant.totalDamageTaken
        goldEarned := participant.goldEarned
        gameRank := gameRank
        teamPosition := participant.teamPosition
        lpChange := none }

/-! ## LP delta attributor (`attachLpChanges`) -/

def TIER_ORDER : List String :=
  ["IRON", "BRONZE", "SILVER", "GOLD", "PLATINUM", "EMERALD", "DIAMOND"]

def RANK_ORDER : List String := ["IV", "III", "II", "I"]

/-- `flatLp`: tier/rank/lp on one flat integer scale; apex tiers share the
band above `DIAMOND` (the source's `indexOf` returning `-1` becomes
`indexOf?` returning `none`, and a missing rank contributes `0`). -/
def flatLp (tier rank : String) (lp : Int) : Int :=
  match TIER_ORDER.indexOf? tier with
  | some tierIndex =>
    let rankIndex := (RANK_ORDER.indexOf? rank).getD 0
    (tierIndex : Int) * 400 + (rankIndex : Int) * 100 + lp
  | none => 2800 + lp

def RANKED_SOLO_QUEUE_ID : Nat := 420

/-- A match's end time in epoch seconds:
`Math.floor((m.gameCreation + m.gameDuration * 1000) / 1000)`. -/
def ProcessedMatch.gameEndTime (m : ProcessedMatch) : Nat :=
  (m.gameCreation + m.gameDuration * 1000) / 1000

/-- The ranked-queue filter `m.queueId === RANKED_SOLO_QUEUE_ID`. -/
def isRanked (m : ProcessedMatch) : Bool := m.queueId == RANKED_SOLO_QUEUE_ID

/-- The bracketing test of the loop body:
`gameEndTime > before.recorded_at && gameEndTime <= after.recorded_at`. -/
def inBracket (b a : LpSnapshot) (m : ProcessedMatch) : Bool :=
  decide (b.recorded_at < m.gameEndTime) && decide (m.gameEndTime ≤ a.recorded_at)

/-- Membership in `bracketed`: the source filters `matches` down to
`rankedMatches` once and then filters those by the bracket test, which is the
composite predicate below on the full list. -/
def bracketPred (b a : LpSnapshot) (m : ProcessedMatch) : Bool :=
  isRanked m && inBracket b a m

/-- `(after.wins + after.losses) - (before.wins + before.losses)`. -/
def gamesPlayed (b a : LpSnapshot) : Int :=
  ((a.wins + a.losses : Nat) : Int) - ((b.wins + b.losses : Nat) : Int)

/-- `flatLp(after) - flatLp(before)` for a snapshot pair. -/
def snapDelta (b a : LpSnapshot) : Int :=
  flatLp a.tier a.rank a.lp - flatLp b.tier b.rank b.lp

/-- Write `lpChange` on a match (the source mutates the shared object). -/
def setLp (m : ProcessedMatch) (v : Int) : ProcessedMatch :=
  { m with lpChange := some v }

/-- One iteration of the `attachLpChanges` loop, for the consecutive snapshot
pair `(b, a)`: skip when fewer than one game was played between the two
observations or no ranked match ends in the bracket; assign the exact delta
when exactly one match is bracketed; otherwise distribute the delta
(evenly when the bracketed matches are all wins or all losses, else by the
assumed 1.25:1 gain/loss ratio).  The source mutates the bracketed objects in
place; here the list is rebuilt with the same updates. -/
def applyPair (ms : List ProcessedMatch) (b a : LpSnapshot) : List ProcessedMatch :=
  if gamesPlayed b a < 1 then ms
  else
    let totalDelta := snapDelta b a
    let bracketed := ms.filter (bracketPred b a)
    if bracketed.length = 0 then ms
    else if bracketed.length = 1 then
      ms.map fun m => if bracketPred b a m then setLp m totalDelta else m
    else
      let wins := (bracketed.filter (fun m => m.win)).length
      let losses := (bracketed.filter (fun m => !m.win)).length
      if wins = 0 ∨ losses = 0 then
        let perGame := round ((totalDelta : ℚ) / (bracketed.length : ℚ))
        ms.map fun m => if bracketPred b a m then setLp m perGame else m
      else
        let denom : ℚ := (wins : ℚ) * (5 / 4) - (losses : ℚ)
        if 1 / 100 < |denom| then
          let lossPerGame : ℚ := (totalDelta : ℚ) / denom
          let gainPerGame : ℚ := (5 / 4) * lossPerGame
          ms.map fun m =>
            if bracketPred b a m then
              setLp m (round (if m.win then gainPerGame else -|lossPerGame|))
            else m
        else
          let perGame := round ((totalDelta : ℚ) / (bracketed.length : ℚ))
          ms.map fun m => if bracketPred b a m then setLp m perGame else m

/-- The consecutive snapshot pairs `(snapshots[i], snapshots[i+1])` the loop
iterates over. -/
def consecutivePairs (l : List LpSnapshot) : List (LpSnapshot × LpSnapshot) :=
  l.zip l.tail

/-- A snapshot pair touches a match when at least one game was played between
the two observations and the (ranked) match ends inside the pair's bracket —
exactly the condition under which the loop body writes `lpChange`. -/
def hits (p : LpSnapshot × LpSnapshot) (m : ProcessedMatch) : Bool :=
  decide (1 ≤ gamesPlayed p.1 p.2) && bracketPred p.1 p.2 m

/-- `attachLpChanges` from `riot-api.server.ts`; the `getLpSnapshots` read is
made explicit as the `snapshots` argument, and the in-place mutation of
`matches` becomes the returned list. -/
def attachLpChanges (snapshots : List LpSnapshot)
    (matchList : List ProcessedMatch) : List ProcessedMatch :=
  if snapshots.length < 2 then matchList
  else if (matchList.filter isRanked).length = 0 then matchList
  else (consecutivePairs snapshots).foldl (fun ms p => applyPair ms p.1 p.2) matchList

/-- A ranked snapshot at `t = 1000` with 10 wins and 5 losses (Gold II,
40 LP). -/
def snapA : LpSnapshot := ⟨"GOLD", "II", 40, 10, 5, 1000⟩

/-- A ranked snapshot at `t = 2000` one game after `snapA` (Gold II, 62 LP). -/
def snapB1 : LpSnapshot := ⟨"GOLD", "II", 62, 11, 5, 2000⟩

/-- A ranked snapshot at `t = 2000` two games after `snapA` (Gold II, 62 LP). -/
def snapB2 : LpSnapshot := ⟨"GOLD", "II", 62, 12, 5, 2000⟩

/-- A ranked solo-queue match ending at `t = 1500`
(`gameCreation = 1400000 ms`, 100 s long). -/
def sampleMatch : ProcessedMatch :=
  ⟨"NA1_1", true, "Ahri", 12, 5, 2, 7, 180, 0, 20, [0, 0, 0, 0, 0, 0], 0,
    4, 14, 100, 420, 1400000, 10000, 8000, 11000, 1, "MIDDLE", none⟩

/-- The same match shifted to end exactly at `snapA`'s time `t = 1000`. -/
def boundaryMatch : ProcessedMatch :=
  ⟨"NA1_2", true, "Ahri", 12, 5, 2, 7, 180, 0, 20, [0, 0, 0, 0, 0, 0], 0,
    4, 14, 100, 420, 900000, 10000, 8000, 11000, 1, "MIDDLE", none⟩

/-- The same match shifted to end exactly at the `after` snapshot's time
`t = 2000`. -/
def afterBoundaryMatch : ProcessedMatch :=
  ⟨"NA1_3", true, "Ahri", 12, 5, 2, 7, 180, 0, 20, [0, 0, 0, 0, 0, 0], 0,
    4, 14, 100, 420, 1900000, 10000, 8000, 11000, 1, "MIDDLE", none⟩

/-! ## Match detail with in-flight dedup (`getMatchDetail`) -/

def MATCH_DETAIL_TTL : Nat := 7 * 24 * 60 * 60

/-- Process state seen by `getMatchDetail`: the persistent cache, the
module-level `inflightMatches` map (matchId to the pending Future, identified
by an id), the id for the next Future created, and a ghost counter of
upstream fetches started. -/
structure DedupState where
  cache : CacheStore MatchDetail
  inflight : List (String × Nat)
  nextFuture : Nat
  fetchCount : Nat
deriving Repr, DecidableEq

/-- What a `getMatchDetail` call hands its caller: an already-cached value
(`Promise.resolve(cached)`) or a reference to a pending Future. -/
inductive MdResult where
  | cached (v : MatchDetail)
  | future (id : Nat)
deriving Repr, DecidableEq

/-- The synchronous section of `getMatchDetail` (everything before the first
suspension point): probe the cache; on a miss reuse the in-flight Future for
this id if one is registered, else register a fresh Future and start the
upstream fetch. -/
def getMatchDetailCall (s : DedupState) (matchId : String) (now : Nat) :
    DedupState × MdResult :=
  let key := "match:" ++ matchId
  let read := cacheGet s.cache key MATCH_DETAIL_TTL now
  match read.1 with
  | some v => ({ s with cache := read.2 }, .cached v)
  | none =>
    match (s.inflight.find? (fun e => e.1 == matchId)) with
    | some e => ({ s with cache := read.2 }, .future e.2)
    | none =>
      ({ cache := read.2
         inflight := s.inflight ++ [(matchId, s.nextFuture)]
         nextFuture := s.nextFuture + 1
         fetchCount := s.fetchCount + 1 }, .future s.nextFuture)

/-- Settlement of the Future for `matchId`: on success the async body has
written the cache; either way the `finally` handler removes the in-flight
registration. -/
def settleMatchDetail (s : DedupState) (matchId : String)
    (outcome : Except RiotApiError MatchDetail) (now : Nat) : DedupState :=
  let key := "match:" ++ matchId
  let s1 :=
    match outcome with
    | .ok v => { s with cache := cacheSet s.cache key v now }
    | .error _ => s
  { s1 with inflight := s1.inflight.filter (fun e => !(e.1 == matchId)) }

/-- `n` callers invoking `getMatchDetail` for the same id, one after another
(the event loop serializes the synchronous sections), before any settlement. -/
def getMatchDetailCalls (s : DedupState) (matchId : String) (now : Nat) :
    Nat → DedupState × List MdResult
  | 0 => (s, [])
  | n + 1 =>
    let r1 := getMatchDetailCall s matchId now
    let rest := getMatchDetailCalls r1.1 matchId now n
    (rest.1, r1.2 :: rest.2)

/-! ## Ranked lookup (`getRankedByPuuid`) -/

def RANKED_TTL : Nat := 30 * 60

/-- `RankedData` from `riot-api.server.ts`. -/
structure RankedData where
  tier : String
  rank : String
  lp : Int
  wins : Nat
  losses : Nat
deriving Repr, DecidableEq

/-- `CachedRanked`: what `getRankedByPuuid` stores under `ranked:{puuid}`. -/
structure CachedRanked where
  hasRank : Bool
  data : Option RankedData
deriving Repr, DecidableEq

/-- One entry of the upstream league-entries payload (the fields the accessor
reads). -/
structure LeagueEntry where
  queueType : String
  tier : String
  rank : String
  leaguePoints : Int
  wins : Nat
  losses : Nat
deriving Repr, DecidableEq

/-- The stores `getRankedByPuuid` touches: the `ranked:` cache namespace and
this subject's `lp_history` rows. -/
structure RankedStores where
  cache : CacheStore CachedRanked
  lpHistory : List LpSnapshot
deriving Repr, DecidableEq

/-- `getRankedByPuuid` from `riot-api.server.ts`.  `entries` is the outcome of
`riotFetch` plus body parsing (the whole `try` block's upstream interaction);
any error there is caught and turned into `null` with no further writes. -/
def getRankedByPuuid (st : RankedStores) (puuid : String) (forceFresh : Bool)
    (entries : Except RiotApiError (List LeagueEntry)) (now : Nat) :
    Option RankedData × RankedStores :=
  let cacheKey := "ranked:" ++ puuid
  let read :=
    if !forceFresh then cacheGet st.cache cacheKey RANKED_TTL now
    else (none, st.cache)
  match read.1 with
  | some c => (c.data, { st with cache := read.2 })
  | none =>
    match entries with
    | .error _ => (none, { st with cache := read.2 })
    | .ok es =>
      match es.find? (fun e => e.queueType == "RANKED_SOLO_5x5") with
      | none =>
        (none, { st with cache := cacheSet read.2 cacheKey ⟨false, none⟩ now })
      | some soloQueue =>
        let ranked : RankedData :=
          ⟨soloQueue.tier, soloQueue.rank, soloQueue.leaguePoints,
            soloQueue.wins, soloQueue.losses⟩
        (some ranked,
          { cache := cacheSet read.2 cacheKey ⟨true, some ranked⟩ now
            lpHistory := recordLpSnapshot st.lpHistory ranked.tier ranked.rank
              ranked.lp ranked.wins ranked.losses now })

/-! ## Member match history (`getMemberMatchHistory`) -/

/-- `TeamMember` from `types.ts`. -/
structure TeamMember where
  id : Nat
  team_id : Nat
  game_name : String
  tag_line : String
  puuid : Option String
  profile_icon_id : Option Nat
  created_at : String
deriving Repr, DecidableEq

/-- `MemberWithMatches` from `types.ts` (the `matches` field is named
`matchList` here because `matches` is reserved in Lean). -/
structure MemberWithMatches where
  member : TeamMember
  matchList : List ProcessedMatch
  ranked : Option RankedData
  error : Option String
deriving Repr, DecidableEq

/-- The `failedCount` accumulated by the per-id `try`/`catch` around
`getMatchDetail`: how many of the requested details ended in an error. -/
def failedCount (matchIds : List String)
    (details : String → Except RiotApiError MatchDetail) : Nat :=
  ((matchIds.map details).filter (fun r => r.toOption.isNone)).length

/-- The matches `getMemberMatchHistory` keeps: details that loaded, processed
for this subject (dropping any detail the subject does not appear in), with
LP changes attached. -/
def keptMatches (cgr : List MatchParticipant → Nat → String → Option Nat)
    (puuid : String) (matchIds : List String)
    (details : String → Except RiotApiError MatchDetail)
    (lpHistory : List LpSnapshot) : List ProcessedMatch :=
  attachLpChanges (getLpSnapshots lpHistory)
    (((matchIds.map details).filterMap Except.toOption).filterMap
      (fun md => processMatch cgr md puuid))

/-- The happy path of `getMemberMatchHistory` (account resolution succeeded):
given the match-id page and the outcome of each `getMatchDetail` call, keep
the details that loaded, process them for this subject, attach LP changes,
and derive the user-facing `error` field from the failure count.  The
`getLpSnapshots` read done inside `attachLpChanges` is explicit here. -/
def getMemberMatchHistory (cgr : List MatchParticipant → Nat → String → Option Nat)
    (member : TeamMember) (puuid : String) (matchIds : List String)
    (details : String → Except RiotApiError MatchDetail)
    (ranked : Option RankedData) (lpHistory : List LpSnapshot) :
    MemberWithMatches :=
  let withLp := keptMatches cgr puuid matchIds details lpHistory
  let error : Option String :=
    if 0 < failedCount matchIds details ∧ 0 < withLp.length then
      some ("Loaded " ++ toString withLp.length ++ " of " ++
        toString matchIds.length ++ " matches (" ++
        toString (failedCount matchIds details) ++ " failed)")
    else if 0 < failedCount matchIds details ∧ withLp.length = 0 then
      some "All matches failed to load — try again shortly"
    else none
  { member := member, matchList := withLp, ranked := ranked, error := error }

/-! ## Theorems -/

/-- C3: a pipeline call whose every upstream response is HTTP 429 performs
exactly `MAX_RATE_LIMIT_RETRIES` (3) rate-limit retries, sleeping the
server-supplied `Retry-After` seconds (default 2 when the header is absent)
before each retry, leaves the network-retry `attempt` counter unchanged at
every upstream call, and then fails with a terminal error of status 429: the
trace shows the initial call plus three retries (the `rateLimitRetries`
counter moving 0,1,2,3 while `attempt` stays at `a`), one `Retry-After` sleep
before each retry, and no further attempt. -/
theorem riotFetchInner_allRateLimited (ra : Nat → Option Nat) (k a : Nat) :
    riotFetchInner true (fun i => .response ⟨429, ra i⟩) k a 0 =
      (.error ⟨"Rate limited by Riot API (max retries exceeded)", 429⟩,
        [.fetchAttempt a 0, .sleepMs ((ra k).getD 2 * 1000),
         .fetchAttempt a 1, .sleepMs ((ra (k + 1)).getD 2 * 1000),
         .fetchAttempt a 2, .sleepMs ((ra (k + 2)).getD 2 * 1000),
         .fetchAttempt a 3]) := by
  simp [riotFetchInner, MAX_RATE_LIMIT_RETRIES]

/-- C4: a pipeline call whose every attempt ends in a network failure makes
exactly `MAX_RETRIES` (3) attempts, sleeping `RETRY_DELAY_MS * attemptNumber`
between them, then fails with the network error (status 0): the trace shows
attempts 1, 2, 3 with the two linear-backoff sleeps in between, and no fourth
attempt. -/
theorem riotFetchInner_allNetworkErrors (k rl : Nat) :
    riotFetchInner true (fun _ => .netError) k 1 rl =
      (.error ⟨"Network error: failed to reach Riot API", 0⟩,
        [.fetchAttempt 1 rl, .sleepMs (RETRY_DELAY_MS * 1),
         .fetchAttempt 2 rl, .sleepMs (RETRY_DELAY_MS * 2),
         .fetchAttempt 3 rl]) := by
  simp [riotFetchInner, MAX_RETRIES]

/-- A cache read that reports a miss leaves no row for the key in the store
it returns: either no row existed, or the expired row was deleted. -/
theorem cacheGet_miss_no_row {α : Type} (st : CacheStore α) (key : String)
    (ttl now : Nat) (h : (cacheGet st key ttl now).1 = none) :
    (cacheGet st key ttl now).2.find? (fun r => r.cache_key == key) = none := by
  unfold cacheGet at *
  cases hfind : st.find? (fun r => r.cache_key == key) with
  | none => exact hfind
  | some row =>
    rw [hfind] at h
    by_cases hexp : (ttl : Int) < (now : Int) - (row.cached_at : Int)
    · simp only [hexp, if_true]
      rw [List.find?_eq_none]
      intro x hx
      rcases List.mem_filter.mp hx with ⟨-, hpx⟩
      simpa using hpx
    · simp [hexp] at h

/-- C7: a cache read that finds an entry older than the caller-supplied TTL
returns `none` (behaves as a miss) and deletes the entry, so no row for the
key remains in the store after the read. -/
theorem cacheGet_expired_deletes {α : Type} (st : CacheStore α) (key : String)
    (ttl now : Nat) (row : CacheRow α)
    (hfind : st.find? (fun r => r.cache_key == key) = some row)
    (hexp : (ttl : Int) < (now : Int) - (row.cached_at : Int)) :
    (cacheGet st key ttl now).1 = none ∧
      (cacheGet st key ttl now).2.find? (fun r => r.cache_key == key) = none := by
  have h1 : (cacheGet st key ttl now).1 = none := by
    unfold cacheGet
    rw [hfind]
    simp [hexp]
  exact ⟨h1, cacheGet_miss_no_row st key ttl now h1⟩

/-- Witness for C7: a store holding one 0-stamped row read at `now = 10` with
TTL 1 misses and leaves the store empty of the key. -/
theorem cacheGet_expired_deletes_witness :
    ((cacheGet [⟨"k", 7, 0⟩] "k" 1 10 : Option Nat × CacheStore Nat).1 = none ∧
      ((cacheGet [⟨"k", 7, 0⟩] "k" 1 10 : Option Nat × CacheStore Nat)).2.find?
        (fun r => r.cache_key == "k") = none) :=
  cacheGet_expired_deletes [⟨"k", 7, 0⟩] "k" 1 10 ⟨"k", 7, 0⟩ (by decide) (by decide)

/-- C10: when there is no fresh cache entry for the subject and the upstream
ranked-entries fetch (or parsing) fails, `getRankedByPuuid` returns `null`
rather than propagating the error, writes no `ranked:` cache entry (none
exists for the key afterwards), and records no LP snapshot. -/
theorem getRankedByPuuid_error_soft (st : RankedStores) (puuid : String)
    (e : RiotApiError) (now : Nat)
    (hmiss : (cacheGet st.cache ("ranked:" ++ puuid) RANKED_TTL now).1 = none) :
    (getRankedByPuuid st puuid false (.error e) now).1 = none ∧
      (getRankedByPuuid st puuid false (.error e) now).2.cache.find?
        (fun r => r.cache_key == ("ranked:" ++ puuid)) = none ∧
      (getRankedByPuuid st puuid false (.error e) now).2.lpHistory = st.lpHistory := by
  have hrow := cacheGet_miss_no_row st.cache ("ranked:" ++ puuid) RANKED_TTL now hmiss
  unfold getRankedByPuuid
  simp [hmiss, hrow]

/-- Witness for C10: an empty store and a failed fetch yield `null`, no cache
row and an untouched history. -/
theorem getRankedByPuuid_error_soft_witness :
    (getRankedByPuuid ⟨[], []⟩ "p" false (.error ⟨"boom", 0⟩) 5).1 = none ∧
      (getRankedByPuuid ⟨[], []⟩ "p" false (.error ⟨"boom", 0⟩) 5).2.cache.find?
        (fun r => r.cache_key == ("ranked:" ++ "p")) = none ∧
      (getRankedByPuuid ⟨[], []⟩ "p" false (.error ⟨"boom", 0⟩) 5).2.lpHistory = [] :=
  getRankedByPuuid_error_soft ⟨[], []⟩ "p" ⟨"boom", 0⟩ 5 (by decide)

/-- Along any well-formed trace the outstanding-permit count coincides with
the `active` counter and stays within `[0, max]`. -/
theorem semRun_invariant (max : Int) (es : List SemEv) (s : SemState) (o : Int)
    (hval : semValid max (s, o) es = true) (ho : o = s.active)
    (h0 : 0 ≤ s.active) (hm : s.active ≤ max) :
    (semRun max (s, o) es).2 = (semRun max (s, o) es).1.active ∧
      0 ≤ (semRun max (s, o) es).2 ∧ (semRun max (s, o) es).2 ≤ max := by
  induction es generalizing s o with
  | nil => exact ⟨ho, ho ▸ h0, ho ▸ hm⟩
  | cons e es ih =>
    cases e with
    | acq i =>
      rw [semValid] at hval
      rw [semRun]
      by_cases hlt : s.active < max
      · have h1 : semAcquire max s i = ({ s with active := s.active + 1 }, true) := by
          simp [semAcquire, hlt]
        rw [h1] at hval
        rw [h1]
        simp only [if_true] at hval ⊢
        exact ih _ _ hval (by simp [ho]) (by simp; omega) (by simp; omega)
      · have h1 : semAcquire max s i = ({ s with queue := s.queue ++ [i] }, false) := by
          simp [semAcquire, hlt]
        rw [h1] at hval
        rw [h1]
        simp only [Bool.false_eq_true, if_false] at hval ⊢
        exact ih _ _ hval ho h0 hm
    | rel =>
      rw [semValid] at hval
      rw [semRun]
      rw [Bool.and_eq_true] at hval
      obtain ⟨hone, hval'⟩ := hval
      have hone' : (1 : Int) ≤ o := of_decide_eq_true hone
      cases hq : s.queue with
      | nil =>
        have h1 : semRelease s = (⟨s.active - 1, []⟩, none) := by
          simp [semRelease, hq]
        rw [h1] at hval'
        rw [h1]
        simp only [Option.isSome_none, Bool.false_eq_true, if_false] at hval' ⊢
        exact ih _ _ hval' (by simp; omega) (by simp; omega) (by simp; omega)
      | cons w rest =>
        have h1 : semRelease s = (⟨s.active - 1 + 1, rest⟩, some w) := by
          simp [semRelease, hq]
        rw [h1] at hval'
        rw [h1]
        simp only [Option.isSome_some, if_true] at hval' ⊢
        exact ih _ _ hval' (by simp; omega) (by simp; omega) (by simp; omega)

/-- C5: for every well-formed interleaving of `acquire`/`release` events on
the capacity-5 semaphore (each `release` performed by a caller holding a
permit), the number of simultaneously outstanding permits never exceeds 5 and
never goes negative, and at any reachable state a further `acquire` is
granted immediately exactly when fewer than 5 permits are outstanding
(otherwise the caller is queued until a `release` hands it the freed
permit). -/
theorem semaphore_bounded (es : List SemEv)
    (hval : semValid 5 semInit es = true) :
    0 ≤ (semRun 5 semInit es).2 ∧ (semRun 5 semInit es).2 ≤ 5 ∧
      ∀ i, (semAcquire 5 (semRun 5 semInit es).1 i).2 = true ↔
        (semRun 5 semInit es).2 < 5 := by
  obtain ⟨heq, h0, hm⟩ :=
    semRun_invariant 5 es ⟨0, []⟩ 0 hval rfl (by simp) (by norm_num)
  refine ⟨h0, hm, fun i => ?_⟩
  show (semAcquire 5 (semRun 5 (⟨⟨0, []⟩, 0⟩ : SemState × Int) es).1 i).2 = true ↔
    (semRun 5 (⟨⟨0, []⟩, 0⟩ : SemState × Int) es).2 < 5
  rw [heq]
  unfold semAcquire
  by_cases hlt : (semRun 5 (⟨⟨0, []⟩, 0⟩ : SemState × Int) es).1.active < 5
  · simp [hlt]
  · simp [hlt]

/-- Witness for C5: a burst of six acquires (the sixth queues) followed by a
release that hands the freed permit over; the bound and the immediate-grant
criterion hold at the final state. -/
theorem semaphore_bounded_witness :
    0 ≤ (semRun 5 semInit [.acq 0, .acq 1, .acq 2, .acq 3, .acq 4, .acq 5, .rel]).2 ∧
      (semRun 5 semInit [.acq 0, .acq 1, .acq 2, .acq 3, .acq 4, .acq 5, .rel]).2 ≤ 5 ∧
      ∀ i, (semAcquire 5 (semRun 5 semInit
          [.acq 0, .acq 1, .acq 2, .acq 3, .acq 4, .acq 5, .rel]).1 i).2 = true ↔
        (semRun 5 semInit [.acq 0, .acq 1, .acq 2, .acq 3, .acq 4, .acq 5, .rel]).2 < 5 :=
  semaphore_bounded [.acq 0, .acq 1, .acq 2, .acq 3, .acq 4, .acq 5, .rel] (by decide)

/-- A cache read against a store holding no row for the key is a miss that
leaves the store untouched. -/
theorem cacheGet_of_find?_none {α : Type} (st : CacheStore α) (key : String)
    (ttl now : Nat) (h : st.find? (fun r => r.cache_key == key) = none) :
    cacheGet st key ttl now = (none, st) := by
  unfold cacheGet
  rw [h]

/-- A `getMatchDetail` call against a state whose cache has no row for the
key but which has an in-flight Future for the id returns that Future and
changes nothing. -/
theorem getMatchDetailCall_inflight_hit (t : DedupState) (matchId : String)
    (now : Nat) (f : Nat)
    (hc : t.cache.find? (fun r => r.cache_key == ("match:" ++ matchId)) = none)
    (hi : t.inflight.find? (fun e => e.1 == matchId) = some (matchId, f)) :
    getMatchDetailCall t matchId now = (t, .future f) := by
  simp only [getMatchDetailCall, cacheGet_of_find?_none t.cache ("match:" ++ matchId)
    MATCH_DETAIL_TTL now hc, hi]

/-- C6: if `K + 1` callers invoke `getMatchDetail` for the same id while the
cache holds nothing for its key and no fetch is in flight, before the shared
Future settles, then exactly one upstream fetch is started, every caller
receives the very same Future, and once that Future settles — successfully or
not — the in-flight registration for the id is gone. -/
theorem getMatchDetail_dedup (s : DedupState) (matchId : String) (now : Nat)
    (K : Nat)
    (hcache : (cacheGet s.cache ("match:" ++ matchId) MATCH_DETAIL_TTL now).1 = none)
    (hinfl : s.inflight.find? (fun e => e.1 == matchId) = none) :
    (getMatchDetailCalls s matchId now (K + 1)).1.fetchCount = s.fetchCount + 1 ∧
      (getMatchDetailCalls s matchId now (K + 1)).2 =
        List.replicate (K + 1) (.future s.nextFuture) ∧
      ∀ outcome now2,
        ((settleMatchDetail (getMatchDetailCalls s matchId now (K + 1)).1
            matchId outcome now2).inflight.find?
          (fun e => e.1 == matchId)) = none := by
  set key := "match:" ++ matchId with hkey
  have hrow := cacheGet_miss_no_row s.cache key MATCH_DETAIL_TTL now hcache
  -- the first call registers a fresh Future and starts the one fetch
  have hfirst : getMatchDetailCall s matchId now =
      (⟨(cacheGet s.cache key MATCH_DETAIL_TTL now).2,
        s.inflight ++ [(matchId, s.nextFuture)],
        s.nextFuture + 1, s.fetchCount + 1⟩, .future s.nextFuture) := by
    simp only [getMatchDetailCall, ← hkey, hcache, hinfl]
  set s1 : DedupState :=
    ⟨(cacheGet s.cache key MATCH_DETAIL_TTL now).2,
      s.inflight ++ [(matchId, s.nextFuture)],
      s.nextFuture + 1, s.fetchCount + 1⟩ with hs1
  have hc1 : s1.cache.find? (fun r => r.cache_key == key) = none := hrow
  have hi1 : s1.inflight.find? (fun e => e.1 == matchId) = some (matchId, s.nextFuture) := by
    simp only [hs1, List.find?_append, hinfl, Option.none_or]
    simp
  -- every further call is absorbed by the in-flight map
  have hrest : ∀ n, getMatchDetailCalls s1 matchId now n =
      (s1, List.replicate n (.future s.nextFuture)) := by
    intro n
    induction n with
    | zero => rfl
    | succ n ih =>
      rw [getMatchDetailCalls]
      rw [getMatchDetailCall_inflight_hit s1 matchId now s.nextFuture hc1 hi1]
      rw [ih]
      rfl
  have hcalls : getMatchDetailCalls s matchId now (K + 1) =
      (s1, List.replicate (K + 1) (.future s.nextFuture)) := by
    rw [getMatchDetailCalls, hfirst]
    dsimp only
    rw [hrest K]
    rfl
  rw [hcalls]
  refine ⟨rfl, rfl, fun outcome now2 => ?_⟩
  have hfil : ∀ l : List (String × Nat),
      (l.filter (fun e => !(e.1 == matchId))).find? (fun e => e.1 == matchId) = none := by
    intro l
    rw [List.find?_eq_none]
    intro x hx
    rcases List.mem_filter.mp hx with ⟨-, hpx⟩
    simpa using hpx
  cases outcome with
  | ok v => exact hfil _
  | error err => exact hfil _

/-- Witness for C6: three concurrent callers for `NA1_1` against the empty
state produce one fetch, identical Futures, and a clean in-flight map after
either settlement. -/
theorem getMatchDetail_dedup_witness :
    (getMatchDetailCalls ⟨[], [], 0, 0⟩ "NA1_1" 50 (2 + 1)).1.fetchCount =
        (⟨[], [], 0, 0⟩ : DedupState).fetchCount + 1 ∧
      (getMatchDetailCalls ⟨[], [], 0, 0⟩ "NA1_1" 50 (2 + 1)).2 =
        List.replicate (2 + 1) (.future (⟨[], [], 0, 0⟩ : DedupState).nextFuture) ∧
      ∀ outcome now2,
        ((settleMatchDetail (getMatchDetailCalls ⟨[], [], 0, 0⟩ "NA1_1" 50 (2 + 1)).1
            "NA1_1" outcome now2).inflight.find?
          (fun e => e.1 == "NA1_1")) = none :=
  getMatchDetail_dedup ⟨[], [], 0, 0⟩ "NA1_1" 50 2 (by decide) (by decide)

/-- One `recordLpSnapshot` call either skips or appends exactly the row built
from its arguments. -/
theorem recordLpSnapshot_cases (hist : List LpSnapshot) (t r : String)
    (lp : Int) (w l n : Nat) :
    recordLpSnapshot hist t r lp w l n = hist ∨
      recordLpSnapshot hist t r lp w l n = hist ++ [⟨t, r, lp, w, l, n⟩] := by
  unfold recordLpSnapshot
  cases latestSnapshot hist with
  | none => exact Or.inr rfl
  | some last =>
    by_cases hc : last.wins = w ∧ last.losses = l
    · exact Or.inl (by simp [hc])
    · exact Or.inr (by simp [hc])

/-- A run of `recordLpSnapshot` calls from any starting history produces a
sublist of that history followed by the candidate rows, in call order. -/
theorem foldRecords_sublist (inputs : List LpInput) :
    ∀ hist : List LpSnapshot,
      List.Sublist
        (inputs.foldl
          (fun h i => recordLpSnapshot h i.tier i.rank i.lp i.wins i.losses i.now)
          hist)
        (hist ++ inputs.map LpInput.snap) := by
  induction inputs with
  | nil => intro hist; simp
  | cons i rest ih =>
    intro hist
    rw [List.foldl_cons]
    rcases recordLpSnapshot_cases hist i.tier i.rank i.lp i.wins i.losses i.now with h | h
    · rw [h]
      refine (ih hist).trans ?_
      rw [List.map_cons]
      exact List.Sublist.append_left (List.sublist_cons_self i.snap (rest.map LpInput.snap)) hist
    · rw [h]
      refine (ih (hist ++ [i.snap])).trans ?_
      rw [List.map_cons, List.append_assoc]
      simp

/-- C8 (amended): provided the recorded inputs for a subject arrive with
non-decreasing `wins + losses` and a monotone clock — as they do when the
upstream ranked ladder only ever adds games within a season — every pair of
snapshots in the stored history ordered by `recorded_at` is non-decreasing in
`wins + losses`.  (Unconditionally the code only guarantees that consecutive
stored snapshots differ in wins or losses; see the counterexample.) -/
theorem lpHistory_monotone_of_monotone_inputs (inputs : List LpInput)
    (hmono : inputs.Pairwise (fun x y => x.wins + x.losses ≤ y.wins + y.losses))
    (hclock : inputs.Pairwise (fun x y => x.now ≤ y.now)) :
    (getLpSnapshots (runRecords inputs)).Pairwise
      (fun x y => x.wins + x.losses ≤ y.wins + y.losses) := by
  have hsub : List.Sublist (runRecords inputs) (inputs.map LpInput.snap) := by
    simpa [runRecords] using foldRecords_sublist inputs []
  have hsorted : (runRecords inputs).Pairwise
      (fun x y => x.recorded_at ≤ y.recorded_at) :=
    List.Pairwise.sublist hsub
      (List.pairwise_map.mpr (hclock.imp (fun h => h)))
  have hms : getLpSnapshots (runRecords inputs) = runRecords inputs :=
    List.mergeSort_of_sorted (hsorted.imp (fun h => by simpa using h))
  rw [hms]
  exact List.Pairwise.sublist hsub
    (List.pairwise_map.mpr (hmono.imp (fun h => h)))

/-- Witness for C8 (amended): two monotone calls (10+5 then 11+5 games)
produce a history with non-decreasing `wins + losses`. -/
theorem lpHistory_monotone_witness :
    (getLpSnapshots (runRecords
      [⟨"GOLD", "II", 40, 10, 5, 1000⟩, ⟨"GOLD", "II", 62, 11, 5, 2000⟩])).Pairwise
      (fun x y => x.wins + x.losses ≤ y.wins + y.losses) :=
  lpHistory_monotone_of_monotone_inputs
    [⟨"GOLD", "II", 40, 10, 5, 1000⟩, ⟨"GOLD", "II", 62, 11, 5, 2000⟩]
    (by decide) (by decide)

/-- Counterexample to C8 as stated: `recordLpSnapshot` appends whenever wins
or losses differ from the latest snapshot, with no monotonicity check, so a
season-reset-style call sequence (10 wins 5 losses, then 0 and 0) stores a
history whose consecutive snapshots drop from 15 to 0 games — the claimed
invariant fails. -/
theorem lpHistory_monotone_counterexample :
    (getLpSnapshots (runRecords
      [⟨"GOLD", "II", 40, 10, 5, 1000⟩, ⟨"IRON", "IV", 0, 0, 0, 2000⟩])).map
      (fun s => s.wins + s.losses) = [15, 0] := by
  have h1 : runRecords
      [⟨"GOLD", "II", 40, 10, 5, 1000⟩, ⟨"IRON", "IV", 0, 0, 0, 2000⟩] =
      [⟨"GOLD", "II", 40, 10, 5, 1000⟩, ⟨"IRON", "IV", 0, 0, 0, 2000⟩] := rfl
  rw [h1]
  rw [show getLpSnapshots
      [⟨"GOLD", "II", 40, 10, 5, 1000⟩, ⟨"IRON", "IV", 0, 0, 0, 2000⟩] =
      [⟨"GOLD", "II", 40, 10, 5, 1000⟩, ⟨"IRON", "IV", 0, 0, 0, 2000⟩] from
    List.mergeSort_of_sorted (by decide)]
  rfl

/-- Counterexample to C9 as stated: one requested match whose detail fetch
succeeds but whose participant list does not contain the subject is dropped
by `processMatch` with `failedCount` still 0, so the returned list is empty
while `error` is unset — a requested match is silently missing although the
claim says `error` is unset only when nothing is missing. -/
theorem getMemberMatchHistory_silent_drop :
    (getMemberMatchHistory (fun _ _ _ => none)
        ⟨1, 1, "Ace", "NA1", some "p", none, "t0"⟩ "p" ["NA1_1"]
        (fun _ => .ok ⟨⟨"NA1_1", []⟩, ⟨0, 0, 0, "CLASSIC", 420, []⟩⟩)
        none []).error = none ∧
      (getMemberMatchHistory (fun _ _ _ => none)
        ⟨1, 1, "Ace", "NA1", some "p", none, "t0"⟩ "p" ["NA1_1"]
        (fun _ => .ok ⟨⟨"NA1_1", []⟩, ⟨0, 0, 0, "CLASSIC", 420, []⟩⟩)
        none []).matchList = [] := by
  constructor <;>
    simp [getMemberMatchHistory, keptMatches, failedCount, processMatch,
      attachLpChanges, getLpSnapshots, Except.toOption]

/-- C9 (amended): `getMemberMatchHistory` returns the matches that both
fetched and processed successfully, and derives `error` from the detail-fetch
failure count alone: `error` is unset exactly when no detail fetch failed
(even if processing silently dropped a fetched match), is the warning message
when some fetch failed and at least one match is returned, and is the
hard-error message when some fetch failed and no match is returned (which can
happen even when not every fetch failed). -/
theorem getMemberMatchHistory_error_reporting
    (cgr : List MatchParticipant → Nat → String → Option Nat)
    (member : TeamMember) (puuid : String) (matchIds : List String)
    (details : String → Except RiotApiError MatchDetail)
    (ranked : Option RankedData) (lpHistory : List LpSnapshot) :
    (getMemberMatchHistory cgr member puuid matchIds details ranked lpHistory).matchList =
        keptMatches cgr puuid matchIds details lpHistory ∧
      ((getMemberMatchHistory cgr member puuid matchIds details ranked lpHistory).error = none ↔
        failedCount matchIds details = 0) ∧
      (0 < failedCount matchIds details →
        0 < (keptMatches cgr puuid matchIds details lpHistory).length →
        (getMemberMatchHistory cgr member puuid matchIds details ranked lpHistory).error =
          some ("Loaded " ++
            toString (keptMatches cgr puuid matchIds details lpHistory).length ++
            " of " ++ toString matchIds.length ++ " matches (" ++
            toString (failedCount matchIds details) ++ " failed)")) ∧
      (0 < failedCount matchIds details →
        (keptMatches cgr puuid matchIds details lpHistory).length = 0 →
        (getMemberMatchHistory cgr member puuid matchIds details ranked lpHistory).error =
          some "All matches failed to load — try again shortly") := by
  unfold getMemberMatchHistory
  dsimp only
  split_ifs with h1 h2
  · exact ⟨rfl, by simp; omega, fun _ _ => rfl, fun _ h => by omega⟩
  · exact ⟨rfl, by simp; omega, fun hf hl => by omega, fun _ _ => rfl⟩
  · refine ⟨rfl, by simp; omega, fun hf hl => by omega, fun hf hl => by omega⟩

/-- Witness for C9 (amended), at one requested id whose detail fetch fails:
the kept list is empty, the failure count is 1, and the hard-error message is
set. -/
theorem getMemberMatchHistory_error_reporting_witness :
    (getMemberMatchHistory (fun _ _ _ => none)
        ⟨1, 1, "Ace", "NA1", some "p", none, "t0"⟩ "p" ["m"]
        (fun _ => .error ⟨"boom", 0⟩) none []).matchList =
        keptMatches (fun _ _ _ => none) "p" ["m"] (fun _ => .error ⟨"boom", 0⟩) [] ∧
      ((getMemberMatchHistory (fun _ _ _ => none)
          ⟨1, 1, "Ace", "NA1", some "p", none, "t0"⟩ "p" ["m"]
          (fun _ => .error ⟨"boom", 0⟩) none []).error = none ↔
        failedCount ["m"] (fun _ => .error ⟨"boom", 0⟩) = 0) ∧
      (0 < failedCount ["m"] (fun _ => .error ⟨"boom", 0⟩) →
        0 < (keptMatches (fun _ _ _ => none) "p" ["m"]
            (fun _ => .error ⟨"boom", 0⟩) []).length →
        (getMemberMatchHistory (fun _ _ _ => none)
            ⟨1, 1, "Ace", "NA1", some "p", none, "t0"⟩ "p" ["m"]
            (fun _ => .error ⟨"boom", 0⟩) none []).error =
          some ("Loaded " ++
            toString (keptMatches (fun _ _ _ => none) "p" ["m"]
              (fun _ => .error ⟨"boom", 0⟩) []).length ++
            " of " ++ toString (["m"] : List String).length ++ " matches (" ++
            toString (failedCount ["m"] (fun _ => .error ⟨"boom", 0⟩)) ++ " failed)")) ∧
      (0 < failedCount ["m"] (fun _ => .error ⟨"boom", 0⟩) →
        (keptMatches (fun _ _ _ => none) "p" ["m"]
            (fun _ => .error ⟨"boom", 0⟩) []).length = 0 →
        (getMemberMatchHistory (fun _ _ _ => none)
            ⟨1, 1, "Ace", "NA1", some "p", none, "t0"⟩ "p" ["m"]
            (fun _ => .error ⟨"boom", 0⟩) none []).error =
          some "All matches failed to load — try again shortly") :=
  getMemberMatchHistory_error_reporting (fun _ _ _ => none)
    ⟨1, 1, "Ace", "NA1", some "p", none, "t0"⟩ "p" ["m"]
    (fun _ => .error ⟨"boom", 0⟩) none []

/-- Every non-identity branch of `applyPair` rewrites the list by a map that
touches exactly the bracketed matches, writing only `lpChange`. -/
theorem applyPair_shape (ms : List ProcessedMatch) (b a : LpSnapshot) :
    applyPair ms b a = ms ∨
      ∃ f : ProcessedMatch → Int,
        applyPair ms b a =
          ms.map (fun m => if bracketPred b a m then setLp m (f m) else m) := by
  simp only [applyPair]
  split_ifs
  · exact Or.inl rfl
  · exact Or.inl rfl
  · exact Or.inr ⟨_, rfl⟩
  · exact Or.inr ⟨_, rfl⟩
  · exact Or.inr ⟨_, rfl⟩
  · exact Or.inr ⟨_, rfl⟩

/-- `applyPair` never changes the number of matches. -/
theorem applyPair_length (ms : List ProcessedMatch) (b a : LpSnapshot) :
    (applyPair ms b a).length = ms.length := by
  rcases applyPair_shape ms b a with h | ⟨f, h⟩ <;> simp [h]

/-- Writing `lpChange` does not change the fields the bracket test reads. -/
theorem bracketPred_setLp (b a : LpSnapshot) (m : ProcessedMatch) (v : Int) :
    bracketPred b a (setLp m v) = bracketPred b a m := rfl

/-- Writing `lpChange` does not change whether a pair touches the match. -/
theorem hits_setLp (p : LpSnapshot × LpSnapshot) (m : ProcessedMatch) (v : Int) :
    hits p (setLp m v) = hits p m := rfl

/-- `applyPair` preserves the bracketed-match count of every pair (the bracket
test only reads fields it never writes). -/
theorem filter_length_applyPair (ms : List ProcessedMatch) (b a b' a' : LpSnapshot) :
    ((applyPair ms b a).filter (bracketPred b' a')).length =
      (ms.filter (bracketPred b' a')).length := by
  rcases applyPair_shape ms b a with h | ⟨f, h⟩
  · rw [h]
  · rw [h, List.filter_map, List.length_map]
    congr 1
    apply List.filter_congr
    intro x _
    by_cases hx : bracketPred b a x = true <;> simp [hx, Function.comp, bracketPred_setLp]

/-- A pair that does not touch the match at position `i` leaves it unchanged. -/
theorem applyPair_getElem?_of_not_hit (ms : List ProcessedMatch)
    (b a : LpSnapshot) (i : Nat) (m : ProcessedMatch)
    (hm : ms[i]? = some m) (hnot : hits (b, a) m = false) :
    (applyPair ms b a)[i]? = some m := by
  rw [hits, Bool.and_eq_false_iff] at hnot
  rcases hnot with hgp | hpred
  · have hgp' : gamesPlayed b a < 1 := by simpa using hgp
    unfold applyPair
    rw [if_pos hgp']
    exact hm
  · rcases applyPair_shape ms b a with h | ⟨f, h⟩
    · rw [h]; exact hm
    · rw [h, List.getElem?_map, hm]
      simp [hpred]

/-- Indexing one of the per-branch assignment maps at a bracketed match. -/
theorem map_assign_getElem? (ms : List ProcessedMatch) (b a : LpSnapshot)
    (f : ProcessedMatch → Int) (i : Nat) (m : ProcessedMatch)
    (hm : ms[i]? = some m) (hpred : bracketPred b a m = true) :
    (ms.map (fun x => if bracketPred b a x then setLp x (f x) else x))[i]? =
      some (setLp m (f m)) := by
  rw [List.getElem?_map, hm]
  simp [hpred]

/-- A pair that touches the match at position `i` writes some `lpChange`
there, and writes exactly the pair's flat delta when it brackets exactly one
match of the list. -/
theorem applyPair_getElem?_of_hit (ms : List ProcessedMatch)
    (b a : LpSnapshot) (i : Nat) (m : ProcessedMatch)
    (hm : ms[i]? = some m) (hhit : hits (b, a) m = true) :
    ∃ v, (applyPair ms b a)[i]? = some (setLp m v) ∧
      ((ms.filter (bracketPred b a)).length = 1 → v = snapDelta b a) := by
  rw [hits, Bool.and_eq_true] at hhit
  obtain ⟨hgp, hpred⟩ := hhit
  have hgp1 : (1 : Int) ≤ gamesPlayed b a := of_decide_eq_true hgp
  have hgp' : ¬ gamesPlayed b a < 1 := by omega
  have hpred' : bracketPred b a m = true := hpred
  have hmem : m ∈ ms := List.getElem?_mem hm
  have hmemf : m ∈ ms.filter (bracketPred b a) := List.mem_filter.mpr ⟨hmem, hpred'⟩
  have hpos : 0 < (ms.filter (bracketPred b a)).length :=
    List.length_pos.mpr (List.ne_nil_of_mem hmemf)
  simp only [applyPair]
  rw [if_neg hgp']
  split_ifs with h0 h1 hwl hden
  · omega
  · exact ⟨snapDelta b a, map_assign_getElem? ms b a _ i m hm hpred', fun _ => rfl⟩
  · exact ⟨_, map_assign_getElem? ms b a _ i m hm hpred', fun hc => absurd hc (by omega)⟩
  · exact ⟨_, map_assign_getElem? ms b a _ i m hm hpred', fun hc => absurd hc (by omega)⟩
  · exact ⟨_, map_assign_getElem? ms b a _ i m hm hpred', fun hc => absurd hc (by omega)⟩

/-- Folding the loop over a pair list at most one of whose pairs touches the
match at position `i`: if no pair touches it the match is unchanged, and if
one does, it ends with some `lpChange` — the pair's exact flat delta when
that pair brackets exactly one match. -/
theorem foldPairs_getElem? (ps : List (LpSnapshot × LpSnapshot)) :
    ∀ (ms : List ProcessedMatch) (i : Nat) (m : ProcessedMatch),
      ms[i]? = some m →
      ps.countP (fun p => hits p m) ≤ 1 →
      ((∀ p ∈ ps, hits p m = false) →
          (ps.foldl (fun acc p => applyPair acc p.1 p.2) ms)[i]? = some m) ∧
        ∀ p ∈ ps, hits p m = true →
          ∃ v, (ps.foldl (fun acc p => applyPair acc p.1 p.2) ms)[i]? =
              some (setLp m v) ∧
            ((ms.filter (bracketPred p.1 p.2)).length = 1 → v = snapDelta p.1 p.2) := by
  induction ps with
  | nil =>
    intro ms i m hm _
    exact ⟨fun _ => hm, fun p hp => absurd hp (List.not_mem_nil p)⟩
  | cons q qs ih =>
    intro ms i m hm hcount
    rw [List.foldl_cons]
    rw [List.countP_cons] at hcount
    by_cases hq : hits q m = true
    · obtain ⟨v, hv, huniq⟩ := applyPair_getElem?_of_hit ms q.1 q.2 i m hm hq
      have hforall : ∀ p ∈ qs, hits p m = false := by
        simp [hq] at hcount
        exact fun p hp => hcount p.1 p.2 hp
      have hcount' : qs.countP (fun p => hits p (setLp m v)) ≤ 1 := by
        have h0 : qs.countP (fun p => hits p m) = 0 :=
          List.countP_eq_zero.mpr (fun p hp => by simp [hforall p hp])
        have heq : qs.countP (fun p => hits p (setLp m v)) =
            qs.countP (fun p => hits p m) := rfl
        rw [heq, h0]
        omega
      obtain ⟨hno, -⟩ := ih (applyPair ms q.1 q.2) i (setLp m v) hv hcount'
      have hres := hno (fun p hp => hforall p hp)
      refine ⟨?_, ?_⟩
      · intro hall
        exact absurd (hall q (List.mem_cons_self q qs)) (by simp [hq])
      · intro p hp hphit
        rcases List.mem_cons.mp hp with rfl | hpqs
        · exact ⟨v, hres, huniq⟩
        · exact absurd hphit (by simp [hforall p hpqs])
    · have hq' : hits q m = false := by simpa using hq
      have h1 := applyPair_getElem?_of_not_hit ms q.1 q.2 i m hm hq'
      have hcount' : qs.countP (fun p => hits p m) ≤ 1 := by
        simp [hq'] at hcount
        omega
      obtain ⟨hno, hyes⟩ := ih (applyPair ms q.1 q.2) i m h1 hcount'
      refine ⟨?_, ?_⟩
      · intro hall
        exact hno (fun p hp => hall p (List.mem_cons_of_mem q hp))
      · intro p hp hphit
        rcases List.mem_cons.mp hp with rfl | hpqs
        · rw [hphit] at hq'
          cases hq'
        · obtain ⟨v, hres, huniq⟩ := hyes p hpqs hphit
          refine ⟨v, hres, fun hc => huniq ?_⟩
          rw [filter_length_applyPair]
          exact hc

/-- On a time-sorted snapshot list, the right end of each consecutive pair
does not exceed the left end of any later pair. -/
theorem consecutivePairs_pairwise (l : List LpSnapshot)
    (hsort : l.Pairwise (fun x y => x.recorded_at ≤ y.recorded_at)) :
    (consecutivePairs l).Pairwise
      (fun p q => p.2.recorded_at ≤ q.1.recorded_at) := by
  induction l with
  | nil => exact List.Pairwise.nil
  | cons x rest ih =>
    cases rest with
    | nil => exact List.Pairwise.nil
    | cons y rest2 =>
      have hsort' := List.pairwise_cons.mp hsort
      have htail := ih hsort'.2
      have hy := List.pairwise_cons.mp hsort'.2
      refine List.Pairwise.cons ?_ htail
      intro q hq
      have hq1 : q.1 ∈ y :: rest2 := (List.of_mem_zip hq).1
      rcases List.mem_cons.mp hq1 with h | h
      · rw [h]
      · exact hy.1 q.1 h

/-- A list pairwise-incompatible for a predicate satisfies it at most once. -/
theorem countP_le_one_of_pairwise {α : Type} (l : List α) (p : α → Bool)
    (h : l.Pairwise (fun x y => ¬(p x = true ∧ p y = true))) :
    l.countP p ≤ 1 := by
  induction l with
  | nil => simp
  | cons a l ih =>
    have hc := List.pairwise_cons.mp h
    rw [List.countP_cons]
    by_cases ha : p a = true
    · have h0 : l.countP p = 0 :=
        List.countP_eq_zero.mpr (fun b hb hbp => hc.1 b hb ⟨ha, hbp⟩)
      rw [h0]
      simp [ha]
    · have := ih hc.2
      simp [ha]
      omega

/-- On a sorted snapshot history, at most one consecutive pair touches a
given match: the brackets `(before, after]` are pairwise disjoint. -/
theorem countP_hits_le_one (snaps : List LpSnapshot) (m : ProcessedMatch)
    (hsort : snaps.Pairwise (fun x y => x.recorded_at ≤ y.recorded_at)) :
    (consecutivePairs snaps).countP (fun p => hits p m) ≤ 1 := by
  apply countP_le_one_of_pairwise
  apply (consecutivePairs_pairwise snaps hsort).imp
  intro p q hpq ⟨hp, hq⟩
  rw [hits, Bool.and_eq_true] at hp hq
  obtain ⟨-, hp2⟩ := hp
  obtain ⟨-, hq2⟩ := hq
  rw [bracketPred, Bool.and_eq_true] at hp2 hq2
  obtain ⟨-, hpb⟩ := hp2
  obtain ⟨-, hqb⟩ := hq2
  rw [inBracket, Bool.and_eq_true] at hpb hqb
  have h1 : m.gameEndTime ≤ p.2.recorded_at := of_decide_eq_true hpb.2
  have h2 : q.1.recorded_at < m.gameEndTime := of_decide_eq_true hqb.1
  omega

/-- When the list has no ranked match, every loop iteration is a no-op. -/
theorem applyPair_of_no_ranked (ms : List ProcessedMatch) (b a : LpSnapshot)
    (h : (ms.filter isRanked).length = 0) : applyPair ms b a = ms := by
  have hnil : ms.filter isRanked = [] := List.length_eq_zero.mp h
  have hb : ms.filter (bracketPred b a) = [] := by
    rw [List.filter_eq_nil_iff]
    intro x hx
    have hr : isRanked x = false := by
      have := List.filter_eq_nil_iff.mp hnil x hx
      simpa using this
    simp [bracketPred, hr]
  simp [applyPair, hb]

/-- `attachLpChanges` always agrees with the fold of its loop over the
consecutive snapshot pairs (the early returns are cases where that fold does
nothing). -/
theorem attachLpChanges_eq_fold (snaps : List LpSnapshot)
    (ms : List ProcessedMatch) :
    attachLpChanges snaps ms =
      (consecutivePairs snaps).foldl (fun acc p => applyPair acc p.1 p.2) ms := by
  unfold attachLpChanges
  split_ifs with h1 h2
  · have hnil : consecutivePairs snaps = [] := by
      unfold consecutivePairs
      cases snaps with
      | nil => rfl
      | cons x rest =>
        cases rest with
        | nil => rfl
        | cons y r2 =>
          simp at h1
          omega
    rw [hnil]
    rfl
  · have hall : ∀ ps : List (LpSnapshot × LpSnapshot),
        ps.foldl (fun acc p => applyPair acc p.1 p.2) ms = ms := by
      intro ps
      induction ps with
      | nil => rfl
      | cons q qs ih =>
        rw [List.foldl_cons, applyPair_of_no_ranked ms q.1 q.2 h2]
        exact ih
    exact (hall (consecutivePairs snaps)).symm
  · rfl

/-- C1 (amended): on a time-sorted snapshot history and matches whose
`lpChange` starts unset, `attachLpChanges` leaves a match's `lpChange`
non-null exactly when some consecutive snapshot pair with at least one game
played between its observations brackets the (ranked) match's end time; and
when the touching pair brackets exactly one match of the list, the value
written is `flatLp(after) - flatLp(before)`.  (When several matches share the
bracket an estimated value is written instead of the exact delta; the trigger
is the number of bracketed matches, not the number of games played.) -/
theorem attachLpChanges_assignment (snaps : List LpSnapshot)
    (ms : List ProcessedMatch)
    (hsort : snaps.Pairwise (fun x y => x.recorded_at ≤ y.recorded_at))
    (i : Nat) (m : ProcessedMatch) (hm : ms[i]? = some m)
    (hlp : m.lpChange = none) :
    ((attachLpChanges snaps ms)[i]?.bind ProcessedMatch.lpChange ≠ none ↔
        ∃ p ∈ consecutivePairs snaps, hits p m = true) ∧
      ∀ p ∈ consecutivePairs snaps, hits p m = true →
        (ms.filter (bracketPred p.1 p.2)).length = 1 →
        (attachLpChanges snaps ms)[i]?.bind ProcessedMatch.lpChange =
          some (snapDelta p.1 p.2) := by
  obtain ⟨hno, hyes⟩ := foldPairs_getElem? (consecutivePairs snaps) ms i m hm
    (countP_hits_le_one snaps m hsort)
  rw [attachLpChanges_eq_fold]
  constructor
  · constructor
    · intro hne
      by_contra hnex
      push_neg at hnex
      have hall : ∀ p ∈ consecutivePairs snaps, hits p m = false := by
        intro p hp
        simpa using hnex p hp
      rw [hno hall] at hne
      exact hne (by simp [hlp])
    · rintro ⟨p, hp, hphit⟩
      obtain ⟨v, hres, -⟩ := hyes p hp hphit
      rw [hres]
      simp [setLp]
  · intro p hp hphit hcount
    obtain ⟨v, hres, huniq⟩ := hyes p hp hphit
    rw [hres, huniq hcount]
    simp [setLp]

/-- Witness for C1 (amended): snapshots at 1000 and 2000 one game apart
bracket the single ranked match ending at 1500; its `lpChange` is non-null
and equals the 22-point flat delta. -/
theorem attachLpChanges_assignment_witness :
    ((attachLpChanges [snapA, snapB1] [sampleMatch])[0]?.bind
          ProcessedMatch.lpChange ≠ none ↔
        ∃ p ∈ consecutivePairs [snapA, snapB1], hits p sampleMatch = true) ∧
      ∀ p ∈ consecutivePairs [snapA, snapB1], hits p sampleMatch = true →
        (([sampleMatch].filter (bracketPred p.1 p.2)).length = 1) →
        (attachLpChanges [snapA, snapB1] [sampleMatch])[0]?.bind
            ProcessedMatch.lpChange = some (snapDelta p.1 p.2) :=
  attachLpChanges_assignment [snapA, snapB1] [sampleMatch] (by decide)
    0 sampleMatch rfl rfl

/-- Counterexample to C1 as stated: between the two observations two ranked
games were played (`gamesBetween = 2`), so the claim demands `lpChange` stay
unset for a bracketed match; the code instead keys attribution on the number
of *bracketed matches* and, with the match ending at 1500 the only one in the
bracket, writes the exact 22-point delta. -/
theorem attachLpChanges_claim_counterexample :
    gamesPlayed snapA snapB2 = 2 ∧
      (attachLpChanges [snapA, snapB2] [sampleMatch]).map
        ProcessedMatch.lpChange = [some 22] := by
  exact ⟨rfl, rfl⟩

/-- C2 (amended): the bracket a snapshot pair (with at least one game played
between the observations) uses for a single ranked match is the half-open
interval `before.recorded_at < gameEndTime ≤ after.recorded_at`: a match
ending exactly at `after.recorded_at` is attributed to that pair, while one
ending exactly at `before.recorded_at` is not (it belongs to the bracket
ending at `before`, when one exists). -/
theorem attachLpChanges_bracket_boundary (s1 s2 : LpSnapshot)
    (m : ProcessedMatch) (hr : isRanked m = true)
    (hgp : ¬ gamesPlayed s1 s2 < 1) :
    (inBracket s1 s2 m = true ↔
        s1.recorded_at < m.gameEndTime ∧ m.gameEndTime ≤ s2.recorded_at) ∧
      (inBracket s1 s2 m = true →
        attachLpChanges [s1, s2] [m] = [setLp m (snapDelta s1 s2)]) ∧
      (inBracket s1 s2 m = false → attachLpChanges [s1, s2] [m] = [m]) := by
  have hfold : attachLpChanges [s1, s2] [m] = applyPair [m] s1 s2 := by
    rw [attachLpChanges_eq_fold]
    rfl
  refine ⟨by simp [inBracket], ?_, ?_⟩
  · intro hin
    have hpred : bracketPred s1 s2 m = true := by
      simp [bracketPred, hr, hin]
    rw [hfold]
    simp only [applyPair]
    rw [if_neg hgp]
    simp [hpred]
  · intro hin
    have hpred : bracketPred s1 s2 m = false := by
      simp [bracketPred, hin]
    rw [hfold]
    simp only [applyPair]
    rw [if_neg hgp]
    simp [hpred]

/-- Witness for C2 (amended): the match ending exactly at the `after`
snapshot's time 2000 is inside the bracket and gets the 22-point delta. -/
theorem attachLpChanges_bracket_boundary_witness :
    (inBracket snapA snapB1 afterBoundaryMatch = true ↔
        snapA.recorded_at < afterBoundaryMatch.gameEndTime ∧
          afterBoundaryMatch.gameEndTime ≤ snapB1.recorded_at) ∧
      (inBracket snapA snapB1 afterBoundaryMatch = true →
        attachLpChanges [snapA, snapB1] [afterBoundaryMatch] =
          [setLp afterBoundaryMatch (snapDelta snapA snapB1)]) ∧
      (inBracket snapA snapB1 afterBoundaryMatch = false →
        attachLpChanges [snapA, snapB1] [afterBoundaryMatch] =
          [afterBoundaryMatch]) :=
  attachLpChanges_bracket_boundary snapA snapB1 afterBoundaryMatch rfl
    (by decide)

/-- Counterexample to C2 as stated: a ranked match ending exactly at
`before.recorded_at = 1000`, with exactly one game between the snapshots at
1000 and 2000.  The claim's bracket `before ≤ end < after` would attribute it
to this pair (and give it the delta); the code's strict lower bound excludes
it and its `lpChange` stays unset. -/
theorem bracketing_claim_counterexample :
    ProcessedMatch.gameEndTime boundaryMatch = snapA.recorded_at ∧
      gamesPlayed snapA snapB1 = 1 ∧
      isRanked boundaryMatch = true ∧
      (attachLpChanges [snapA, snapB1] [boundaryMatch]).map
        ProcessedMatch.lpChange = [none] := by
  exact ⟨rfl, rfl, rfl, rfl⟩

end RiftLegends
